import Mathlib

/-!
Shallow embedding of `src/alarm_cond.c`: an interactive alarm scheduler.
The alarm store is the global singly linked list `alarm_list`, modelled as
`List AlarmT` (head of the list = front of the C list).  Machine `int` /
`time_t` values are modelled as `Int`.  The concurrent dispatcher is modelled
by making every return from a condition-variable wait an explicit observation
(`WaitObs`) of the shared state the thread sees once it reacquires the mutex.
-/

/-- Translation of `struct alarm_tag` (src/alarm_cond.c lines 25-34); the
`link` pointer is represented by the position in the `List AlarmT`. -/
structure AlarmT where
  seconds : Int
  id_alarm : Int
  id_group : Int
  message : String
  time : Int
deriving Repr, DecidableEq

/-- List effect of `alarm_insert` (src/alarm_cond.c lines 58-77): walk the
list and insert the alarm before the first node whose `time` is `≥` the new
alarm's `time`; append at the end otherwise. -/
def alarm_insert_list (alarm : AlarmT) : List AlarmT → List AlarmT
  | [] => [alarm]
  | next :: rest =>
    if next.time ≥ alarm.time then alarm :: next :: rest
    else next :: alarm_insert_list alarm rest

/-- Signalling effect of `alarm_insert` (src/alarm_cond.c lines 93-97): given
the new alarm's `time` and the value of `current_alarm`, return the updated
`current_alarm` and whether `pthread_cond_signal` was called. -/
def alarm_insert_signal (alarmTime current_alarm : Int) : Int × Bool :=
  if current_alarm = 0 ∨ alarmTime < current_alarm then (alarmTime, true)
  else (current_alarm, false)

/-- Full `alarm_insert` (src/alarm_cond.c lines 46-98): list mutation plus
`current_alarm` update and signal flag. -/
def alarm_insert (alarm : AlarmT) (alarm_list : List AlarmT) (current_alarm : Int) :
    List AlarmT × Int × Bool :=
  (alarm_insert_list alarm alarm_list,
   (alarm_insert_signal alarm.time current_alarm).1,
   (alarm_insert_signal alarm.time current_alarm).2)

/-- Translation of `alarm_cancel` (src/alarm_cond.c line 165): its body is
empty, so the store is returned unchanged and no diagnostic is produced. -/
def alarm_cancel (_alarm : AlarmT) (alarm_list : List AlarmT) : List AlarmT :=
  alarm_list

/-- One return from a condition-variable wait, as observed by the dispatcher
once it holds the mutex again: whether `pthread_cond_timedwait` returned
`ETIMEDOUT`, and the shared `alarm_list` and `current_alarm` at that moment
(the main thread may have run `alarm_insert` any number of times while the
dispatcher was blocked).  A nonzero non-`ETIMEDOUT` status makes the code
call `err_abort`, which terminates the process, so it produces no
observation. -/
structure WaitObs where
  etimedout : Bool
  lst : List AlarmT
  cur : Int
deriving Repr, DecidableEq

/-- The inner `while (alarm_list == NULL) pthread_cond_wait(...)` loop
(src/alarm_cond.c lines 126-129): consume wait observations until the shared
list is nonempty; `none` when the observation trace runs out while the list
is still empty (the thread is still blocked). -/
def empty_wait_loop : List AlarmT → List WaitObs → Option (List AlarmT × List WaitObs)
  | [], [] => none
  | [], o :: rest => empty_wait_loop o.lst rest
  | a :: lst, evs => some (a :: lst, evs)

/-- The `while (current_alarm == alarm->time) pthread_cond_timedwait(...)`
loop (src/alarm_cond.c lines 142-151) for an alarm with deadline `t`.
Arguments: current `current_alarm`, current shared list (the popped alarm is
not in it), remaining wait observations.  Result `some (expired, lst, evs)`:
`expired = true` when the loop exited through `ETIMEDOUT`, `false` when it
exited because `current_alarm` no longer equals `t` (preemption); `lst` and
`evs` are the shared list and unconsumed observations at exit.  `none` when
the trace runs out while still waiting. -/
def timed_wait_loop (t : Int) : Int → List AlarmT → List WaitObs →
    Option (Bool × List AlarmT × List WaitObs)
  | cur, lst, [] => if cur ≠ t then some (false, lst, []) else none
  | cur, lst, o :: rest =>
    if cur ≠ t then some (false, lst, o :: rest)
    else if o.etimedout then some (true, o.lst, rest)
    else timed_wait_loop t o.cur o.lst rest

/-- Result of one iteration of the dispatcher's `while (1)` body: the shared
list when the iteration ends, and the alarm whose delivery line
`(<seconds>) <message>` was printed, if any. -/
structure IterOut where
  lst : List AlarmT
  delivered : Option AlarmT
deriving Repr, DecidableEq

/-- One iteration of the body of `alarm_group_display_creation`'s `while (1)`
loop (src/alarm_cond.c lines 119-160): reset `current_alarm` to 0, wait for a
nonempty list, pop its head, and either deliver it at once (`time ≤ now`),
wait until `ETIMEDOUT` and deliver, or be preempted and re-insert it with
`alarm_insert`.  `none` when the thread is still blocked in a wait. -/
def dispatch_iteration (now : Int) (lst0 : List AlarmT) (evs0 : List WaitObs) :
    Option IterOut :=
  match empty_wait_loop lst0 evs0 with
  | none => none
  | some (lst, evs) =>
    match lst with
    | [] => none
    | alarm :: rest =>
      if now < alarm.time then
        match timed_wait_loop alarm.time alarm.time rest evs with
        | none => none
        | some (expired, lst2, _) =>
          if expired then some ⟨lst2, some alarm⟩
          else some ⟨alarm_insert_list alarm lst2, none⟩
      else some ⟨rest, some alarm⟩

/-- The whole `while (1)` loop of `alarm_group_display_creation`
(src/alarm_cond.c lines 103-161), run for `fuel` iterations; `nowAt n` and
`evsAt n` supply the `time (NULL)` value and the wait observations of
iteration `n`.  A result `some ()` would mean the function returned to its
caller; the body has no `return` and no `break` out of the outer loop, so no
branch produces it — `none` covers both exhausted fuel and a blocked wait. -/
def dispatch_loop (nowAt : Nat → Int) (evsAt : Nat → List WaitObs) :
    Nat → List AlarmT → Option Unit
  | 0, _ => none
  | n + 1, lst =>
    match dispatch_iteration (nowAt n) lst (evsAt n) with
    | none => none
    | some out => dispatch_loop nowAt evsAt n out.lst

/-- Translation of `input_validator` (src/alarm_cond.c lines 178-200):
`some flag` for the six recognized keyword/argument-count combinations;
`none` models falling through to `err_abort (69, "command not found")`,
which terminates the process. -/
def input_validator (keyword_action keyword_group : String) (user_arg : Int) :
    Option Int :=
  if keyword_action = "Cancel_Alarm" ∧ user_arg = 2 then some 1
  else if keyword_action = "View_Alarms" ∧ user_arg = 1 then some 2
  else if keyword_action = "Start_Alarm" ∧ keyword_group = "Group" ∧ user_arg = 6 then some 3
  else if keyword_action = "Change_Alarm" ∧ keyword_group = "Group" ∧ user_arg = 6 then some 4
  else if keyword_action = "Suspend_Alarm" ∧ user_arg = 2 then some 5
  else if keyword_action = "Reactivate_Alarm" ∧ user_arg = 2 then some 6
  else none

/-- C equality operator `a == b`: yields the `int` 1 or 0. -/
def cEq (a b : Int) : Int := if a = b then 1 else 0

/-- The rejection test of src/alarm_cond.c line 238, exactly as written:
`user_arg == -1 == -1 || alarm->id_alarm < 1 || alarm->id_group < 1`
(`==` is left-associative, and an `int` is true when nonzero). -/
def parse_error_check (user_arg id_alarm id_group : Int) : Bool :=
  decide (cEq (cEq user_arg (-1)) (-1) ≠ 0) ||
  decide (id_alarm < 1) || decide (id_group < 1)

/-- The fields `sscanf` leaves in the stack buffers and the freshly `malloc`ed
alarm after parsing one input line (src/alarm_cond.c lines 235-236), plus its
return value `user_arg`.  Fields the parse did not assign hold the
indeterminate prior contents of the memory, so every theorem quantifies over
them. -/
structure ParsedLine where
  user_arg : Int
  keyword_action : String
  keyword_group : String
  id_alarm : Int
  id_group : Int
  seconds : Int
  message : String
deriving Repr, DecidableEq

/-- What one non-empty input line leads to in `main`'s loop
(src/alarm_cond.c lines 238-255). -/
inductive MainOutcome where
  /-- `fprintf (stderr, "Bad command\n")` and `free (alarm)`; the loop
  continues. -/
  | badCommand
  /-- `input_validator` fell through to `err_abort (69, ...)`: the process
  terminates. -/
  | abortedCommandNotFound
  /-- The alarm was inserted into the list with `alarm_insert`. -/
  | inserted (a : AlarmT)
deriving Repr, DecidableEq

/-- Handling of one parsed non-empty input line by `main`
(src/alarm_cond.c lines 238-255): run the line-238 check, then
`input_validator` (its return value is discarded), then — for every
recognized command — set `alarm->time = time (NULL) + alarm->seconds` and
`alarm_insert` the alarm.  Returns the outcome and the resulting
`alarm_list`. -/
def main_handle (p : ParsedLine) (now : Int) (alarm_list : List AlarmT) :
    MainOutcome × List AlarmT :=
  if parse_error_check p.user_arg p.id_alarm p.id_group then
    (.badCommand, alarm_list)
  else
    match input_validator p.keyword_action p.keyword_group p.user_arg with
    | none => (.abortedCommandNotFound, alarm_list)
    | some _ =>
      let a : AlarmT :=
        ⟨p.seconds, p.id_alarm, p.id_group, p.message, now + p.seconds⟩
      (.inserted a, alarm_insert_list a alarm_list)

/-- The rest of `main`'s loop iteration after a command is accepted
(src/alarm_cond.c lines 246-254): insert the alarm, then call
`alarm_group_display_creation (alarm)` synchronously.  A result `some ()`
would mean control reached `sem_wait` and then the next `Alarm>` prompt;
that requires the synchronous dispatcher call to return. -/
def main_iter_after_accept (nowAt : Nat → Int) (evsAt : Nat → List WaitObs)
    (fuel : Nat) (a : AlarmT) (now : Int) (alarm_list : List AlarmT) :
    Option Unit :=
  dispatch_loop nowAt evsAt fuel
    (alarm_insert_list { a with time := now + a.seconds } alarm_list)

/-- Boolean chain predicate: `r` holds between every two adjacent alarms. -/
def chainB (r : AlarmT → AlarmT → Bool) : List AlarmT → Bool
  | [] => true
  | [_] => true
  | a :: b :: l => r a b && chainB r (b :: l)

/-- The ordering the specification claims for the list: strictly smaller
deadline, or equal deadline and strictly smaller `alarm_id`. -/
def claimedOrderB (a b : AlarmT) : Bool :=
  decide (a.time < b.time) ||
  (decide (a.time = b.time) && decide (a.id_alarm < b.id_alarm))

/-- The ordering `alarm_insert` actually maintains: non-decreasing `time`. -/
def timeLeB (a b : AlarmT) : Bool :=
  decide (a.time ≤ b.time)

/-! ## Helper lemmas about `alarm_insert_list` -/

theorem mem_alarm_insert_self (a : AlarmT) : ∀ l : List AlarmT, a ∈ alarm_insert_list a l
  | [] => by simp [alarm_insert_list]
  | b :: t => by
    simp only [alarm_insert_list]
    split
    · exact List.mem_cons_self a (b :: t)
    · exact List.mem_cons_of_mem b (mem_alarm_insert_self a t)

theorem length_alarm_insert (a : AlarmT) :
    ∀ l : List AlarmT, (alarm_insert_list a l).length = l.length + 1
  | [] => by simp [alarm_insert_list]
  | b :: t => by
    simp only [alarm_insert_list]
    split
    · simp
    · simp [length_alarm_insert a t]

theorem chainB_timeLe_alarm_insert (a : AlarmT) :
    ∀ l : List AlarmT, chainB timeLeB l = true →
      chainB timeLeB (alarm_insert_list a l) = true := by
  intro l
  induction l with
  | nil => intro _; rfl
  | cons b t ih =>
    intro h
    simp only [alarm_insert_list]
    split
    · rename_i hba
      have h1 : timeLeB a b = true := by simp only [timeLeB, decide_eq_true_eq]; omega
      simp only [chainB, Bool.and_eq_true]
      exact ⟨h1, h⟩
    · rename_i hba
      have hb : timeLeB b a = true := by
        simp only [timeLeB, decide_eq_true_eq]
        simp only [ge_iff_le, not_le] at hba
        omega
      cases t with
      | nil =>
        simp only [alarm_insert_list, chainB, Bool.and_eq_true]
        exact ⟨hb, trivial⟩
      | cons c t2 =>
        simp only [chainB, Bool.and_eq_true] at h
        obtain ⟨hbc, ht⟩ := h
        have htail := ih ht
        simp only [alarm_insert_list] at htail ⊢
        by_cases hca : c.time ≥ a.time
        · rw [if_pos hca]
          have h2 : timeLeB a c = true := by simp only [timeLeB, decide_eq_true_eq]; omega
          simp only [chainB, Bool.and_eq_true]
          exact ⟨hb, h2, ht⟩
        · rw [if_neg hca] at htail ⊢
          simp only [chainB, Bool.and_eq_true]
          exact ⟨hbc, htail⟩

/-! ## Helper lemmas about the parse check and the dispatcher -/

theorem cEq_cEq_neg_one (ua : Int) : cEq (cEq ua (-1)) (-1) = 0 := by
  by_cases h : ua = -1 <;> simp [cEq, h]

theorem parse_error_check_eq_false (ua ia ig : Int) (h1 : 1 ≤ ia) (h2 : 1 ≤ ig) :
    parse_error_check ua ia ig = false := by
  simp [parse_error_check, cEq_cEq_neg_one]
  omega

theorem timed_wait_loop_expired_timeout (t : Int) :
    ∀ (evs : List WaitObs) (cur : Int) (lst lst2 : List AlarmT) (evs2 : List WaitObs),
      timed_wait_loop t cur lst evs = some (true, lst2, evs2) →
      ∃ o ∈ evs, o.etimedout = true := by
  intro evs
  induction evs with
  | nil =>
    intro cur lst lst2 evs2 h
    simp only [timed_wait_loop] at h
    split at h
    · simp at h
    · exact absurd h (by simp)
  | cons o rest ih =>
    intro cur lst lst2 evs2 h
    simp only [timed_wait_loop] at h
    split at h
    · simp at h
    · split at h
      · rename_i ho
        exact ⟨o, List.mem_cons_self o rest, ho⟩
      · obtain ⟨o2, ho2mem, ho2⟩ := ih _ _ _ _ h
        exact ⟨o2, List.mem_cons_of_mem o ho2mem, ho2⟩

theorem dispatch_loop_eq_none (nowAt : Nat → Int) (evsAt : Nat → List WaitObs) :
    ∀ (fuel : Nat) (lst : List AlarmT), dispatch_loop nowAt evsAt fuel lst = none := by
  intro fuel
  induction fuel with
  | zero => intro lst; rfl
  | succ n ih =>
    intro lst
    simp only [dispatch_loop]
    cases dispatch_iteration (nowAt n) lst (evsAt n) with
    | none => rfl
    | some out => exact ih out.lst

theorem dispatch_iteration_timed (now : Int) (lst0 : List AlarmT)
    (evs0 evs : List WaitObs) (a : AlarmT) (rest : List AlarmT)
    (hw : empty_wait_loop lst0 evs0 = some (a :: rest, evs)) (ht : now < a.time) :
    dispatch_iteration now lst0 evs0 =
      match timed_wait_loop a.time a.time rest evs with
      | none => none
      | some (expired, lst2, _) =>
        if expired then some ⟨lst2, some a⟩
        else some ⟨alarm_insert_list a lst2, none⟩ := by
  simp only [dispatch_iteration, hw]
  rw [if_pos ht]

/-! ## Claim theorems -/

/-- Claim C1: in any dispatcher iteration whose timed wait is preempted (the
wait loop exits without `ETIMEDOUT` because `current_alarm` no longer equals
the committed deadline), the committed alarm is not delivered and is a member
of the alarm list when the dispatcher resumes its loop, so it is not lost by
preemption. -/
theorem claim_preemption_no_loss (now : Int) (lst0 : List AlarmT)
    (evs0 evs evs2 : List WaitObs) (a : AlarmT) (rest lst2 : List AlarmT)
    (hw : empty_wait_loop lst0 evs0 = some (a :: rest, evs))
    (ht : now < a.time)
    (hp : timed_wait_loop a.time a.time rest evs = some (false, lst2, evs2)) :
    dispatch_iteration now lst0 evs0 = some ⟨alarm_insert_list a lst2, none⟩ ∧
      a ∈ alarm_insert_list a lst2 := by
  refine ⟨?_, mem_alarm_insert_self a lst2⟩
  rw [dispatch_iteration_timed now lst0 evs0 evs a rest hw ht, hp]
  rfl

/-- Witness for C1: an alarm with deadline 10, preempted at wakeup by a new
earliest alarm with deadline 3, is re-inserted and not delivered. -/
theorem claim_preemption_no_loss_witness :
    dispatch_iteration 0 [⟨10, 1, 1, "A", 10⟩] [⟨false, [⟨3, 2, 1, "B", 3⟩], 3⟩] =
      some ⟨alarm_insert_list ⟨10, 1, 1, "A", 10⟩ [⟨3, 2, 1, "B", 3⟩], none⟩ ∧
    (⟨10, 1, 1, "A", 10⟩ : AlarmT) ∈
      alarm_insert_list ⟨10, 1, 1, "A", 10⟩ [⟨3, 2, 1, "B", 3⟩] :=
  claim_preemption_no_loss 0 [⟨10, 1, 1, "A", 10⟩]
    [⟨false, [⟨3, 2, 1, "B", 3⟩], 3⟩] [⟨false, [⟨3, 2, 1, "B", 3⟩], 3⟩] []
    ⟨10, 1, 1, "A", 10⟩ [] [⟨3, 2, 1, "B", 3⟩] (by decide) (by decide) (by decide)

/-- Claim C2 counterexample: the list `alarm_insert` builds is NOT totally
ordered by `(deadline, alarm_id)`: inserting id 1 then id 2, both with
deadline 10, yields an adjacent pair with equal deadlines and descending ids
(the tie is not broken on `alarm_id`), although the pre-insert list satisfied
the claimed order. -/
theorem claim_order_tiebreak_counterexample :
    chainB claimedOrderB (alarm_insert_list ⟨1, 1, 1, "a", 10⟩ []) = true ∧
    chainB claimedOrderB
      (alarm_insert_list ⟨1, 2, 1, "b", 10⟩
        (alarm_insert_list ⟨1, 1, 1, "a", 10⟩ [])) = false := by
  decide

/-- Claim C2 (amended): after every call to `alarm_insert` on a list already
sorted by non-decreasing deadline, the list is sorted by non-decreasing
deadline only; ties on the deadline are not broken by `alarm_id` (the new
alarm is placed before existing alarms with an equal deadline). -/
theorem claim_order_time_sorted_amended (a : AlarmT) (l : List AlarmT)
    (c : Int) (h : chainB timeLeB l = true) :
    chainB timeLeB (alarm_insert a l c).1 = true :=
  chainB_timeLe_alarm_insert a l h

/-- Witness for the amended C2 at a concrete tied insert. -/
theorem claim_order_time_sorted_amended_witness :
    chainB timeLeB [⟨1, 1, 1, "a", 10⟩] = true ∧
    chainB timeLeB (alarm_insert ⟨1, 2, 1, "b", 10⟩ [⟨1, 1, 1, "a", 10⟩] 0).1 = true :=
  ⟨by decide,
   claim_order_time_sorted_amended ⟨1, 2, 1, "b", 10⟩ [⟨1, 1, 1, "a", 10⟩] 0 (by decide)⟩

/-- Claim C3: when the popped alarm's deadline is strictly in the future, the
delivery line is printed only because the timed wait returned `ETIMEDOUT`
while `current_alarm` still equalled the committed deadline — never on a
signalled or spurious wakeup. -/
theorem claim_delivery_only_on_timeout (now : Int) (lst0 : List AlarmT)
    (evs0 evs : List WaitObs) (a : AlarmT) (rest : List AlarmT) (out : IterOut)
    (hw : empty_wait_loop lst0 evs0 = some (a :: rest, evs))
    (ht : now < a.time)
    (hrun : dispatch_iteration now lst0 evs0 = some out)
    (hdel : out.delivered = some a) :
    (∃ lst2 evs2, timed_wait_loop a.time a.time rest evs = some (true, lst2, evs2)) ∧
      ∃ o ∈ evs, o.etimedout = true := by
  rw [dispatch_iteration_timed now lst0 evs0 evs a rest hw ht] at hrun
  cases hq : timed_wait_loop a.time a.time rest evs with
  | none => rw [hq] at hrun; exact absurd hrun (by simp)
  | some r =>
    obtain ⟨expired, lst2, evs2⟩ := r
    rw [hq] at hrun
    cases expired with
    | false =>
      simp only [Option.some.injEq] at hrun
      rw [if_neg (by decide : ¬(false = true))] at hrun
      obtain rfl := Option.some.inj hrun
      simp at hdel
    | true =>
      exact ⟨⟨lst2, evs2, rfl⟩,
        timed_wait_loop_expired_timeout a.time evs a.time rest lst2 evs2 hq⟩

/-- Witness for C3: a future alarm delivered after an `ETIMEDOUT` return. -/
theorem claim_delivery_only_on_timeout_witness :
    (∃ lst2 evs2, timed_wait_loop 10 10 ([] : List AlarmT) [⟨true, [], 0⟩] =
        some (true, lst2, evs2)) ∧
      ∃ o ∈ [(⟨true, [], 0⟩ : WaitObs)], o.etimedout = true :=
  claim_delivery_only_on_timeout 0 [⟨10, 1, 1, "A", 10⟩] [⟨true, [], 0⟩]
    [⟨true, [], 0⟩] ⟨10, 1, 1, "A", 10⟩ [] ⟨[], some ⟨10, 1, 1, "A", 10⟩⟩
    (by decide) (by decide) (by decide) (by decide)

/-- Claim C4: `alarm_group_display_creation` never returns — however many
iterations its unconditional `while (1)` loop runs, no branch produces a
return — and since `main` calls it synchronously after every accepted
command, the remainder of `main`'s loop iteration after an accepted command
never completes (control never comes back to the `Alarm>` prompt). -/
theorem claim_dispatcher_never_returns (fuel : Nat) (nowAt : Nat → Int)
    (evsAt : Nat → List WaitObs) (lst : List AlarmT) (a : AlarmT) (now : Int) :
    dispatch_loop nowAt evsAt fuel lst = none ∧
      main_iter_after_accept nowAt evsAt fuel a now lst = none :=
  ⟨dispatch_loop_eq_none nowAt evsAt fuel lst,
   dispatch_loop_eq_none nowAt evsAt fuel _⟩

/-- Claim C5 counterexample: inserting a second alarm with the already-used
`alarm_id` 1 does not fail and does not leave the store unchanged —
`alarm_insert` has no duplicate-id check, so the store now holds two alarms
with id 1 (and the signal logic ran normally). -/
theorem claim_duplicate_id_counterexample :
    alarm_insert ⟨7, 1, 2, "n", 12⟩ [⟨5, 1, 1, "m", 10⟩] 0 =
      ([⟨5, 1, 1, "m", 10⟩, ⟨7, 1, 2, "n", 12⟩], 12, true) ∧
    (alarm_insert ⟨7, 1, 2, "n", 12⟩ [⟨5, 1, 1, "m", 10⟩] 0).1 ≠
      [⟨5, 1, 1, "m", 10⟩] := by
  decide

/-- Claim C5 (amended): `alarm_insert` never fails: for every store and every
alarm — including one whose `alarm_id` already exists among live alarms —
the alarm is added to the store and the store grows by exactly one entry, so
a second `Start_Alarm` with a duplicate id is inserted too, not rejected. -/
theorem claim_insert_always_succeeds_amended (a : AlarmT) (l : List AlarmT)
    (c : Int) :
    a ∈ (alarm_insert a l c).1 ∧ (alarm_insert a l c).1.length = l.length + 1 :=
  ⟨mem_alarm_insert_self a l, length_alarm_insert a l⟩

/-- Claim C6 (code bug): `alarm_cancel` is an empty stub, so a Cancel leaves
the store unchanged — the named alarm is still there — and `main` handles a
recognized `Cancel_Alarm(1)` line by inserting a fresh alarm, not by
removing anything. -/
theorem claim_cancel_stub_noop :
    alarm_cancel ⟨5, 1, 1, "X", 5⟩ [⟨5, 1, 1, "X", 5⟩] = [⟨5, 1, 1, "X", 5⟩] ∧
    main_handle ⟨2, "Cancel_Alarm", "", 1, 1, 0, ""⟩ 0 [⟨5, 1, 1, "X", 5⟩] =
      (.inserted ⟨0, 1, 1, "", 0⟩,
       alarm_insert_list ⟨0, 1, 1, "", 0⟩ [⟨5, 1, 1, "X", 5⟩]) := by
  exact ⟨rfl, by decide⟩

/-- Claim C7 (code bug): a line that parses cleanly but whose keyword is none
of the six recognized commands makes `input_validator` fall through to
`err_abort (69, "command not found")`, terminating the process, instead of
the claimed non-fatal `Bad command` diagnostic. -/
theorem claim_unknown_command_aborts :
    input_validator "Nonsense_Alarm" "Group" 6 = none ∧
    main_handle ⟨6, "Nonsense_Alarm", "Group", 1, 2, 3, "hello"⟩ 0 [] =
      (.abortedCommandNotFound, []) := by
  exact ⟨by decide, by decide⟩

/-- Claim C8: for every accepted Start command, the alarm inserted into the
store has `time = now + seconds` (the wall clock at application plus the
requested duration) and retains the originally requested `seconds`. -/
theorem claim_start_deadline_now_plus_seconds (p : ParsedLine) (now : Int)
    (lst : List AlarmT)
    (hk : p.keyword_action = "Start_Alarm") (hg : p.keyword_group = "Group")
    (hu : p.user_arg = 6) (hi : 1 ≤ p.id_alarm) (hgrp : 1 ≤ p.id_group) :
    main_handle p now lst =
      (.inserted ⟨p.seconds, p.id_alarm, p.id_group, p.message, now + p.seconds⟩,
       alarm_insert_list
         ⟨p.seconds, p.id_alarm, p.id_group, p.message, now + p.seconds⟩ lst) := by
  have hpe := parse_error_check_eq_false p.user_arg p.id_alarm p.id_group hi hgrp
  unfold main_handle
  rw [hpe, hk, hg, hu]
  rfl

/-- Witness for C8 at a concrete accepted Start command. -/
theorem claim_start_deadline_now_plus_seconds_witness :
    main_handle ⟨6, "Start_Alarm", "Group", 1, 2, 3, "hello"⟩ 100 [] =
      (.inserted ⟨3, 1, 2, "hello", 100 + 3⟩,
       alarm_insert_list ⟨3, 1, 2, "hello", 100 + 3⟩ []) :=
  claim_start_deadline_now_plus_seconds ⟨6, "Start_Alarm", "Group", 1, 2, 3, "hello"⟩
    100 [] rfl rfl rfl (by decide) (by decide)

/-- Claim C9 (code bug): the check `user_arg == -1 == -1` of line 238 is
identically false (so an `sscanf` shortfall alone is never rejected), and on
the concrete shortfall line `Start_Alarm(5): Group` — 3 of the 6 required
items matched, with indeterminate `id_group` read as 7 — `main` reaches
`input_validator`, which aborts the process instead of printing the claimed
`Bad command` diagnostic and continuing. -/
theorem claim_shortfall_check_ineffective :
    (∀ ua : Int, cEq (cEq ua (-1)) (-1) = 0) ∧
    main_handle ⟨3, "Start_Alarm", "Group", 5, 7, 0, ""⟩ 0 [] =
      (.abortedCommandNotFound, []) :=
  ⟨fun ua => cEq_cEq_neg_one ua, by decide⟩

/-- Claim C10: for every line `input_validator` recognizes — whichever of the
six command flags it returns — `main` discards the flag and performs the
same action: it inserts the freshly parsed alarm (with `time = now +
seconds`) into the alarm list; so Cancel/View/Suspend/Reactivate lines also
result in an insertion. -/
theorem claim_all_commands_insert (p : ParsedLine) (now : Int)
    (lst : List AlarmT) (flag : Int)
    (hv : input_validator p.keyword_action p.keyword_group p.user_arg = some flag)
    (hi : 1 ≤ p.id_alarm) (hgrp : 1 ≤ p.id_group) :
    main_handle p now lst =
      (.inserted ⟨p.seconds, p.id_alarm, p.id_group, p.message, now + p.seconds⟩,
       alarm_insert_list
         ⟨p.seconds, p.id_alarm, p.id_group, p.message, now + p.seconds⟩ lst) := by
  have hpe := parse_error_check_eq_false p.user_arg p.id_alarm p.id_group hi hgrp
  unfold main_handle
  rw [hpe, hv]
  rfl

/-- Witness for C10: a recognized `Cancel_Alarm(9)` line leads to an
insertion. -/
theorem claim_all_commands_insert_witness :
    main_handle ⟨2, "Cancel_Alarm", "", 9, 1, 0, ""⟩ 50 [] =
      (.inserted ⟨0, 9, 1, "", 50 + 0⟩,
       alarm_insert_list ⟨0, 9, 1, "", 50 + 0⟩ []) :=
  claim_all_commands_insert ⟨2, "Cancel_Alarm", "", 9, 1, 0, ""⟩ 50 [] 1
    (by decide) (by decide) (by decide)
